import Mathlib

/-!
Verification of the two scripts of the Stock_market repository:
src/Another.py (stock dashboard) and src/generator.py (palette generator).
The Python code is shallowly embedded below; prices are modelled as exact
rationals, dates as day numbers (pandas to_datetime maps well-formed ISO
date strings to timestamps monotonically and injectively, so the date
ordering analysis is unchanged).
-/

namespace StockMarket

/-- One per-day record of the JSON array returned by the chart API
(section 6 of the design: date, open, high, low, close, volume).
The date is modelled as a day number, the numeric fields as rationals. -/
structure DayRecord where
  date : Nat
  open_ : Rat
  high : Rat
  low : Rat
  close : Rat
  volume : Rat
deriving DecidableEq, Repr

/-- The JSON body of an API response, as the code distinguishes it
(src/Another.py lines 20-26): either a JSON array of per-day records or a
JSON object, given by its key-value pairs (values are only ever displayed,
so they are modelled as strings). -/
inductive JsonValue where
  | jarr (records : List DayRecord)
  | jdict (fields : List (String × String))
deriving DecidableEq, Repr

/-- An HTTP response as seen by get_stock_data: a status code and a body. -/
structure HttpResponse where
  status_code : Nat
  body : JsonValue
deriving DecidableEq, Repr

/-- One row of the cleaned DataFrame, after column selection and renaming
(src/Another.py lines 29-30). -/
structure StockRow where
  Open : Rat
  High : Rat
  Low : Rat
  Close : Rat
  Volume : Rat
deriving DecidableEq, Repr

/-- The cleaned DataFrame of src/Another.py line 31: a date index plus the
five renamed columns. -/
structure StockSeries where
  index : List Nat
  columns : List String
  rows : List StockRow
deriving DecidableEq, Repr

/-- pandas to_datetime on the date column (src/Another.py line 27).
Dates are already modelled as day numbers, and to_datetime maps well-formed
date strings to timestamps monotonically and injectively, so it is the
identity here. -/
def to_datetime (d : Nat) : Nat := d

/-- The cleaned frame built by src/Another.py lines 26-31 from a record
array: to_datetime on the date column, set_index("date"), selection of
the open/high/low/close/volume columns and renaming to capitalized names.
Row order is the input order: nothing in these lines sorts or
deduplicates. -/
def buildStockSeries (records : List DayRecord) : StockSeries :=
  { index := records.map (fun r => to_datetime r.date)
    columns := ["Open", "High", "Low", "Close", "Volume"]
    rows := records.map (fun r =>
      { Open := r.open_, High := r.high, Low := r.low
        Close := r.close, Volume := r.volume }) }

/-- Embeds src/Another.py lines 26-31 including the error path: on the
empty record array, pd.DataFrame([]) at line 26 has no columns at all, so
reading stock_data["date"] on the right-hand side of line 27 raises an
uncaught KeyError; on a nonempty record array every column exists and the
cleaned frame is built. -/
def normalizeStockData (records : List DayRecord) : Except String StockSeries :=
  match records with
  | [] => Except.error "KeyError: date"
  | r :: rs => Except.ok (buildStockSeries (r :: rs))

/-- Embeds get_stock_data (src/Another.py lines 11-31), as a function of the
HTTP response it receives. Except.error models a propagated Python
exception; Except.ok none models the two explicit early returns of None
(non-200 status, line 16-18, and a JSON object carrying an error key,
lines 21-23); st.error only writes to the UI and has no modelled effect.
A 200 response whose body is a JSON object without an error key reaches
pd.DataFrame(data) with a dict of scalars, which raises in pandas; a 200
response whose body is the empty JSON array raises KeyError inside
normalization (see normalizeStockData). -/
def get_stock_data (response : HttpResponse) : Except String (Option StockSeries) :=
  if response.status_code ≠ 200 then
    Except.ok none
  else
    match response.body with
    | JsonValue.jdict fields =>
        if fields.any (fun kv => kv.1 == "error") then
          Except.ok none
        else
          Except.error "ValueError: DataFrame constructed from a dict of scalars"
    | JsonValue.jarr records =>
        match normalizeStockData records with
        | Except.error e => Except.error e
        | Except.ok s => Except.ok (some s)

/-- Exact division, undefined when the divisor is zero. The Python code
divides with no guard; a zero divisor there produces a division error or a
non-finite float, never a numeric percentage, so the zero-divisor case is
modelled as none. -/
def divOpt (a b : Rat) : Option Rat :=
  if b = 0 then none else some (a / b)

/-- Embeds calculate_price_difference (src/Another.py lines 34-39).
iloc[-1] and iloc[0] on an empty frame raise, modelled by the Option bind
on getLast? and get?; iloc[-252] when the length exceeds 252 is the row at
index length - 252. -/
def calculate_price_difference (stock_data : StockSeries) : Option (Rat × Rat) := do
  let latest_row ← stock_data.rows.getLast?
  let latest_price := latest_row.Close
  let previous_row ←
    if stock_data.rows.length > 252 then
      stock_data.rows[stock_data.rows.length - 252]?
    else
      stock_data.rows[0]?
  let previous_year_price := previous_row.Close
  let price_difference := latest_price - previous_year_price
  let percentage_difference ← (divOpt price_difference previous_year_price).map (fun q => q * 100)
  some (price_difference, percentage_difference)

/-- The close price of the comparison row that calculate_price_difference
divides by: the row at index length - 252 when the series is longer than
252 rows, else the first row (src/Another.py line 36). -/
def comparisonClose (stock_data : StockSeries) : Option Rat :=
  (if stock_data.rows.length > 252 then
      stock_data.rows[stock_data.rows.length - 252]?
    else
      stock_data.rows[0]?).map (fun r => r.Close)

/-- pandas Series.tail(n): the last n elements, or all of them when the
series is shorter than n. -/
def tail (n : Nat) (l : List α) : List α := l.drop (l.length - n)

/-- pandas Series.max on a list of rationals: none on an empty series. -/
def seriesMax : List Rat → Option Rat
  | [] => none
  | a :: as => some (as.foldl max a)

/-- pandas Series.min on a list of rationals: none on an empty series. -/
def seriesMin : List Rat → Option Rat
  | [] => none
  | a :: as => some (as.foldl min a)

/-- Embeds src/Another.py line 56: stock_data["High"].tail(252).max(). -/
def max_52_week_high (stock_data : StockSeries) : Option Rat :=
  seriesMax (tail 252 (stock_data.rows.map (fun r => r.High)))

/-- Embeds src/Another.py line 57: stock_data["Low"].tail(252).min(). -/
def min_52_week_low (stock_data : StockSeries) : Option Rat :=
  seriesMin (tail 252 (stock_data.rows.map (fun r => r.Low)))

/-- A list of dates is strictly increasing when each is below the next. -/
def strictlyIncreasing (l : List Nat) : Prop := List.Chain' (· < ·) l

/-- A small concrete three-day series used to witness the metric
theorems on explicit inputs. -/
def sampleSeries : StockSeries :=
  { index := [1, 2, 3]
    columns := ["Open", "High", "Low", "Close", "Volume"]
    rows := [⟨10, 12, 9, 11, 100⟩, ⟨11, 13, 10, 12, 110⟩, ⟨12, 14, 11, 13, 120⟩] }

instance (l : List Nat) : Decidable (strictlyIncreasing l) :=
  inferInstanceAs (Decidable (List.Chain' (· < ·) l))

end StockMarket

namespace Palette

/-- A decoded PIL image as numpy sees it (src/generator.py line 15): a
width, a height, a channel count given by the image mode (3 for RGB, 4 for
RGBA, 1 for grayscale), and the flattened row-major channel-interleaved
pixel data, each sample a byte value. -/
structure PILImage where
  width : Nat
  height : Nat
  channels : Nat
  pixels : List Nat
deriving DecidableEq, Repr

/-- image.resize((150, 150)) (src/generator.py line 14). The mode, hence
the channel count, is preserved; resampling is modelled as nearest
neighbour, since only the output geometry matters to the code that
follows. Out-of-range reads fall back to 0 (they cannot occur on images
whose pixel list matches their geometry). -/
def resize150 (image : PILImage) : PILImage :=
  { width := 150, height := 150, channels := image.channels
    pixels := (List.range (150 * 150 * image.channels)).map (fun i =>
      let c := i % image.channels
      let pixIdx := i / image.channels
      let outX := pixIdx % 150
      let outY := pixIdx / 150
      let srcX := outX * image.width / 150
      let srcY := outY * image.height / 150
      image.pixels.getD ((srcY * image.width + srcX) * image.channels + c) 0) }

/-- Groups a flat list into consecutive triples, dropping a ragged tail. -/
def chunks3 : List Nat → List (Nat × Nat × Nat)
  | a :: b :: c :: rest => (a, b, c) :: chunks3 rest
  | _ => []

/-- numpy reshape(-1, 3) (src/generator.py line 18): succeeds exactly when
the total number of elements is divisible by 3, and then yields the
consecutive triples; otherwise numpy raises ValueError, modelled as none. -/
def reshapeNeg1x3 (data : List Nat) : Option (List (Nat × Nat × Nat)) :=
  if data.length % 3 = 0 then some (chunks3 data) else none

/-- The seed actually used by sklearn KMeans: the random_state argument
when one is given, otherwise ambient entropy drawn from the global numpy
random state. -/
def resolveSeed (random_state : Option Nat) (entropy : Nat) : Nat :=
  match random_state with
  | some s => s
  | none => entropy

/-- A linear congruential step, standing in for the seeded pseudo-random
generator inside KMeans. -/
def lcg (seed : Nat) : Nat := (seed * 1103515245 + 12345) % 2 ^ 31

/-- Seeded choice of the initial centroids: k pseudo-random picks from the
pixel list, entirely determined by the seed. -/
def pickInit : Nat → Nat → List (Nat × Nat × Nat) → List (Rat × Rat × Rat)
  | _, 0, _ => []
  | seed, k + 1, pixels =>
      let s := lcg seed
      let p := pixels.getD (s % pixels.length) (0, 0, 0)
      ((p.1 : Rat), (p.2.1 : Rat), (p.2.2 : Rat)) :: pickInit s k pixels

/-- Squared euclidean distance between a centroid and a pixel. -/
def sqDist (c : Rat × Rat × Rat) (p : Nat × Nat × Nat) : Rat :=
  (c.1 - (p.1 : Rat)) ^ 2 + (c.2.1 - (p.2.1 : Rat)) ^ 2 + (c.2.2 - (p.2.2 : Rat)) ^ 2

/-- Index of the centroid nearest to a pixel (first wins on ties). -/
def nearestAux (p : Nat × Nat × Nat) : List (Rat × Rat × Rat) → Nat → Nat → Rat → Nat
  | [], _, best, _ => best
  | c :: cs, i, best, bestDist =>
      if sqDist c p < bestDist then nearestAux p cs (i + 1) i (sqDist c p)
      else nearestAux p cs (i + 1) best bestDist

/-- Index of the nearest centroid among a nonempty centroid list. -/
def nearest (cs : List (Rat × Rat × Rat)) (p : Nat × Nat × Nat) : Nat :=
  match cs with
  | [] => 0
  | c :: rest => nearestAux p rest 1 0 (sqDist c p)

/-- Mean of the pixels assigned to cluster i, or the old centroid when the
cluster is empty. -/
def updateCentroid (pixels : List (Nat × Nat × Nat)) (cs : List (Rat × Rat × Rat))
    (i : Nat) (old : Rat × Rat × Rat) : Rat × Rat × Rat :=
  let assigned := pixels.filter (fun p => nearest cs p == i)
  match assigned.length with
  | 0 => old
  | n + 1 =>
      let len : Rat := ((n + 1 : Nat) : Rat)
      (((assigned.map (fun p => (p.1 : Rat))).sum) / len,
       ((assigned.map (fun p => (p.2.1 : Rat))).sum) / len,
       ((assigned.map (fun p => (p.2.2 : Rat))).sum) / len)

/-- One Lloyd iteration: assign every pixel to its nearest centroid, then
move each centroid to the mean of its cluster. -/
def lloydStep (pixels : List (Nat × Nat × Nat)) (cs : List (Rat × Rat × Rat)) :
    List (Rat × Rat × Rat) :=
  (cs.enum).map (fun ci => updateCentroid pixels cs ci.1 ci.2)

/-- A fixed number of Lloyd iterations. -/
def lloydIter : Nat → List (Nat × Nat × Nat) → List (Rat × Rat × Rat) → List (Rat × Rat × Rat)
  | 0, _, cs => cs
  | n + 1, pixels, cs => lloydIter n pixels (lloydStep pixels cs)

/-- numpy astype(int): truncation toward zero. -/
def truncToInt (x : Rat) : Int := if x < 0 then ⌈x⌉ else ⌊x⌋

/-- Model of sklearn KMeans(n_clusters, random_state).fit followed by
cluster_centers_.astype(int) (src/generator.py lines 21-25). The library
is a black box; what the source fixes is that the clustering is Lloyd
iteration whose only randomness is the seeded initialisation, so the
result is a function of the resolved seed, the pixel list and the cluster
count alone. -/
def kmeansCenters (n_clusters : Nat) (random_state : Option Nat) (entropy : Nat)
    (pixels : List (Nat × Nat × Nat)) : List (Int × Int × Int) :=
  let seed := resolveSeed random_state entropy
  let cs0 := pickInit seed n_clusters pixels
  let csF := lloydIter 10 pixels cs0
  csF.map (fun c => (truncToInt c.1, truncToInt c.2.1, truncToInt c.2.2))

/-- Embeds extract_colors (src/generator.py lines 9-26): resize to
150 x 150, flatten to the numpy array, reshape(-1, 3) into pixel rows
(none models the ValueError when the element count is not divisible by 3),
then KMeans with the fixed random_state 42. The entropy argument models
the ambient randomness a run occurs under; the source pins the seed, so it
is never consulted. -/
def extract_colors (entropy : Nat) (image : PILImage) (num_colors : Nat) :
    Option (List (Int × Int × Int)) :=
  let resized := resize150 image
  let image_data := resized.pixels
  (reshapeNeg1x3 image_data).map (fun pixels => kmeansCenters num_colors (some 42) entropy pixels)

/-- Lowercase hexadecimal digit of a value below 16. -/
def toHexDigit (n : Nat) : Char :=
  if n < 10 then Char.ofNat (48 + n) else Char.ofNat (87 + n)

/-- Accumulates the base-16 digits of n, least significant digit handled
first; the fuel argument only bounds the recursion depth and any fuel of
at least the digit count gives the same answer. -/
def hexDigitsAux : Nat → Nat → List Char → List Char
  | 0, _, acc => acc
  | fuel + 1, n, acc =>
      if n < 16 then toHexDigit n :: acc
      else hexDigitsAux fuel (n / 16) (toHexDigit (n % 16) :: acc)

/-- The digits of n written in base 16, most significant first; 0 is "0",
matching the Python format specification x. -/
def hexDigits (n : Nat) : List Char := hexDigitsAux (n + 1) n []

/-- The Python format specification 02x: lowercase hexadecimal, zero
padded on the left to a minimum width of two. -/
def format02x (n : Nat) : String :=
  let ds := hexDigits n
  String.mk (List.replicate (2 - ds.length) '0' ++ ds)

/-- Embeds rgb_to_hex (src/generator.py lines 28-32). -/
def rgb_to_hex (rgb : Nat × Nat × Nat) : String :=
  "#" ++ format02x rgb.1 ++ format02x rgb.2.1 ++ format02x rgb.2.2

/-- A decoded RGB image as the enhancement path sees it: a list of pixels,
each a triple of byte values. This is the three-channel special case of
PILImage, spelled with explicit triples because the enhancement operators
work pixel-wise. -/
structure RGBImage where
  pixels : List (Nat × Nat × Nat)
deriving DecidableEq, Repr

/-- Clamp an integer sample into the byte range when storing into a uint8
image. -/
def clampByte (x : Int) : Nat := (max 0 (min 255 x)).toNat

/-- Rounding of the float interpolation result on conversion back to
uint8. -/
def roundRat (x : Rat) : Int := ⌊x + 1 / 2⌋

/-- One channel of PIL Image.blend(degenerate, image, factor): the affine
interpolation degenerate + factor * (value - degenerate), stored back as a
byte. -/
def interpolateByte (degenerate : Rat) (value : Nat) (factor : Rat) : Nat :=
  clampByte (roundRat (degenerate + factor * ((value : Rat) - degenerate)))

/-- Blend a whole pixel against a uniform degenerate value. -/
def blendPixel (degenerate : Rat) (factor : Rat) (p : Nat × Nat × Nat) : Nat × Nat × Nat :=
  (interpolateByte degenerate p.1 factor,
   interpolateByte degenerate p.2.1 factor,
   interpolateByte degenerate p.2.2 factor)

/-- Model of PIL ImageEnhance.Brightness(image).enhance(factor), used as a
black box by src/generator.py line 60-61: interpolation between the black
degenerate image and the original. -/
def brightnessEnhance (image : RGBImage) (factor : Rat) : RGBImage :=
  ⟨image.pixels.map (blendPixel 0 factor)⟩

/-- ITU-R 601-2 luma of a pixel, as PIL convert("L") computes it. -/
def grayOfPixel (p : Nat × Nat × Nat) : Nat :=
  (p.1 * 299 + p.2.1 * 587 + p.2.2 * 114) / 1000

/-- The degenerate value of ImageEnhance.Contrast: the mean of the
grayscale image, rounded to the nearest integer (an empty image is mapped
to 0; PIL would raise there). -/
def contrastDegenerate (image : RGBImage) : Nat :=
  match image.pixels.length with
  | 0 => 0
  | n + 1 =>
      (⌊(((image.pixels.map grayOfPixel).sum : Rat)) / ((n + 1 : Nat) : Rat) + 1 / 2⌋).toNat

/-- Model of PIL ImageEnhance.Contrast(image).enhance(factor), used as a
black box by src/generator.py line 62-63: interpolation between the solid
mean-gray degenerate image and the original. -/
def contrastEnhance (image : RGBImage) (factor : Rat) : RGBImage :=
  ⟨image.pixels.map (blendPixel ((contrastDegenerate image : Nat) : Rat) factor)⟩

/-- Embeds adjust_image (src/generator.py lines 56-64): brightness
enhancement first, then contrast enhancement on the already
brightness-adjusted image. -/
def adjust_image (image : RGBImage) (brightness contrast : Rat) : RGBImage :=
  contrastEnhance (brightnessEnhance image brightness) contrast

/-- Every sample of an RGB image is a byte value. -/
def RGBImage.wellFormed (image : RGBImage) : Prop :=
  ∀ p ∈ image.pixels, p.1 ≤ 255 ∧ p.2.1 ≤ 255 ∧ p.2.2 ≤ 255

instance (image : RGBImage) : Decidable image.wellFormed :=
  inferInstanceAs (Decidable (∀ p ∈ image.pixels, p.1 ≤ 255 ∧ p.2.1 ≤ 255 ∧ p.2.2 ≤ 255))

end Palette

open StockMarket Palette

/-- C6: rgb_to_hex applied to (255, 0, 0) returns "#ff0000" and applied to
(0, 0, 0) returns "#000000". -/
theorem rgb_to_hex_red_and_black :
    rgb_to_hex (255, 0, 0) = "#ff0000" ∧ rgb_to_hex (0, 0, 0) = "#000000" := by
  constructor <;> rfl

/-- C2: a non-200 response, and a 200 response whose JSON body is an error
object (a JSON object carrying an error key) rather than an array, both
make get_stock_data return None without raising, so no partial series is
produced in either error case. -/
theorem get_stock_data_error_to_none (response : HttpResponse) :
    (response.status_code ≠ 200 → get_stock_data response = Except.ok none) ∧
    (∀ fields, response.status_code = 200 →
      response.body = JsonValue.jdict fields →
      fields.any (fun kv => kv.1 == "error") = true →
      get_stock_data response = Except.ok none) := by
  constructor
  · intro h
    simp [get_stock_data, h]
  · intro fields hs hb he
    simp [get_stock_data, hs, hb, he]

/-- Witness for C2 at a 404 response and at a 200 response carrying a JSON
error object. -/
theorem get_stock_data_error_to_none_witness :
    get_stock_data ⟨404, JsonValue.jarr []⟩ = Except.ok none ∧
    get_stock_data ⟨200, JsonValue.jdict [("error", "Unknown symbol")]⟩ = Except.ok none :=
  ⟨(get_stock_data_error_to_none ⟨404, JsonValue.jarr []⟩).1 (by decide),
   (get_stock_data_error_to_none ⟨200, JsonValue.jdict [("error", "Unknown symbol")]⟩).2
     [("error", "Unknown symbol")] rfl rfl (by decide)⟩

/-- C4 counterexample: at the empty JSON array, itself a well-formed array
of zero per-day records, the code raises KeyError at the to_datetime line
(pd.DataFrame([]) has no date column) instead of returning a 0-row
series, so no series with the claimed shape is produced there. -/
theorem get_stock_data_shape_counterexample :
    ¬ ∃ s : StockSeries,
      get_stock_data ⟨200, JsonValue.jarr []⟩ = Except.ok (some s) ∧
      s.rows.length = ([] : List DayRecord).length ∧
      s.columns = ["Open", "High", "Low", "Close", "Volume"] := by
  rintro ⟨s, hs, -, -⟩
  simp [get_stock_data, normalizeStockData] at hs

/-- C4 (amended): a 200 response consisting of a nonempty JSON array of
per-day records is turned into a series with exactly one row per record
and exactly the columns Open, High, Low, Close, Volume in that order; the
empty array instead raises KeyError during normalization. -/
theorem get_stock_data_shape (records : List DayRecord) (hne : records ≠ []) :
    ∃ s, get_stock_data ⟨200, JsonValue.jarr records⟩ = Except.ok (some s) ∧
      s.rows.length = records.length ∧
      s.columns = ["Open", "High", "Low", "Close", "Volume"] := by
  match records, hne with
  | r :: rs, _ =>
    refine ⟨buildStockSeries (r :: rs), ?_, ?_, rfl⟩
    · simp [get_stock_data, normalizeStockData]
    · simp [buildStockSeries]

/-- Witness for C4 (amended) on a concrete one-record response. -/
theorem get_stock_data_shape_witness :
    ∃ s, get_stock_data ⟨200, JsonValue.jarr [⟨3, 1, 2, 1, 1, 10⟩]⟩ = Except.ok (some s) ∧
      s.rows.length = ([⟨3, 1, 2, 1, 1, 10⟩] : List DayRecord).length ∧
      s.columns = ["Open", "High", "Low", "Close", "Volume"] :=
  get_stock_data_shape [⟨3, 1, 2, 1, 1, 10⟩] (by decide)

/-- C8: extract_colors is deterministic: because the clustering is seeded
with the fixed random_state 42, the result on a given image and cluster
count is the same under any two ambient entropy states, hence identical
across runs. -/
theorem extract_colors_deterministic (e1 e2 : Nat) (image : PILImage) (k : Nat) :
    extract_colors e1 image k = extract_colors e2 image k := by
  simp [extract_colors, kmeansCenters, resolveSeed]

/-- Helper: the exact value of calculate_price_difference once the latest
row, the comparison row and the nonzero comparison close are known. -/
theorem calc_price_difference_eq (s : StockSeries) (lastRow cmpRow : StockRow)
    (hlast : s.rows.getLast? = some lastRow)
    (hsel : (if s.rows.length > 252 then s.rows[s.rows.length - 252]?
        else s.rows[0]?) = some cmpRow)
    (hnz : cmpRow.Close ≠ 0) :
    calculate_price_difference s =
      some (lastRow.Close - cmpRow.Close,
            (lastRow.Close - cmpRow.Close) / cmpRow.Close * 100) := by
  by_cases h : s.rows.length > 252
  · rw [if_pos h] at hsel
    simp [calculate_price_difference, hlast, h, hsel, divOpt, hnz]
  · rw [if_neg h] at hsel
    simp [calculate_price_difference, hlast, h, hsel, divOpt, hnz]

/-- C1: on a series longer than 252 rows the comparison row is the one at
index length - 252, on a nonempty series of at most 252 rows it is row 0,
and the result is the difference of the latest close against that
comparison close together with the corresponding percentage change. -/
theorem calculate_price_difference_spec (s : StockSeries) (lastRow cmpRow : StockRow)
    (hlast : s.rows.getLast? = some lastRow)
    (hcmp : s.rows[(if s.rows.length > 252 then s.rows.length - 252 else 0)]? = some cmpRow)
    (hnz : cmpRow.Close ≠ 0) :
    calculate_price_difference s =
      some (lastRow.Close - cmpRow.Close,
            (lastRow.Close - cmpRow.Close) / cmpRow.Close * 100) := by
  rw [apply_ite (fun i => s.rows[i]?)] at hcmp
  exact calc_price_difference_eq s lastRow cmpRow hlast hcmp hnz

/-- Witness for C1 on a concrete three-row series: the comparison row is
row 0 and the result pairs the close difference with its percentage. -/
theorem calculate_price_difference_spec_witness :
    calculate_price_difference
      ⟨[1, 2, 3], ["Open", "High", "Low", "Close", "Volume"],
        [⟨10, 12, 9, 11, 100⟩, ⟨11, 13, 10, 12, 110⟩, ⟨12, 14, 11, 13, 120⟩]⟩ =
      some ((13 : Rat) - 11, ((13 : Rat) - 11) / 11 * 100) :=
  calculate_price_difference_spec _ ⟨12, 14, 11, 13, 120⟩ ⟨10, 12, 9, 11, 100⟩
    rfl rfl (by norm_num)

/-- C9: the percentage division has no guard in the code, and none is
needed when the precondition holds: on any nonempty series whose
comparison close is nonzero the computation returns a value, so the
division-error branch is unreachable there. -/
theorem price_difference_division_safe (s : StockSeries) (c : Rat)
    (hne : s.rows ≠ []) (hc : comparisonClose s = some c) (hnz : c ≠ 0) :
    (calculate_price_difference s).isSome = true := by
  obtain ⟨lastRow, hlast⟩ : ∃ a, s.rows.getLast? = some a :=
    ⟨s.rows.getLast hne, List.getLast?_eq_getLast_of_ne_nil hne⟩
  unfold comparisonClose at hc
  obtain ⟨cmpRow, hsel, hclose⟩ := Option.map_eq_some'.mp hc
  rw [calc_price_difference_eq s lastRow cmpRow hlast hsel (hclose ▸ hnz)]
  rfl

/-- Witness for C9 on a concrete one-row series with nonzero close. -/
theorem price_difference_division_safe_witness :
    (calculate_price_difference
      ⟨[1], ["Open", "High", "Low", "Close", "Volume"],
        [⟨10, 12, 9, 11, 100⟩]⟩).isSome = true :=
  price_difference_division_safe _ 11 (by decide) rfl (by norm_num)

/-- C3 counterexample: a well-formed two-record response carrying the same
date twice passes normalization unchanged, and the resulting index is
neither strictly increasing nor duplicate-free. -/
theorem stock_index_order_counterexample :
    get_stock_data ⟨200, JsonValue.jarr [⟨3, 1, 2, 1, 1, 10⟩, ⟨3, 1, 2, 1, 1, 20⟩]⟩ =
      Except.ok (some (buildStockSeries [⟨3, 1, 2, 1, 1, 10⟩, ⟨3, 1, 2, 1, 1, 20⟩])) ∧
    ¬ (strictlyIncreasing
        (buildStockSeries [⟨3, 1, 2, 1, 1, 10⟩, ⟨3, 1, 2, 1, 1, 20⟩]).index ∧
       (buildStockSeries [⟨3, 1, 2, 1, 1, 10⟩, ⟨3, 1, 2, 1, 1, 20⟩]).index.Nodup) := by
  refine ⟨by simp [get_stock_data, normalizeStockData], ?_⟩
  rintro ⟨hinc, -⟩
  simp [strictlyIncreasing, buildStockSeries, to_datetime] at hinc

/-- C3 (amended): on every nonempty record array (the empty one raises
KeyError during normalization), normalization succeeds, preserves the
response order and performs no sorting or deduplication: the produced
index is exactly the record dates in input order, so it is strictly
increasing and duplicate-free whenever the response dates already are. -/
theorem normalization_preserves_date_order (records : List DayRecord)
    (hne : records ≠ [])
    (h : strictlyIncreasing (records.map (fun r => r.date))) :
    ∃ s, normalizeStockData records = Except.ok s ∧
      s.index = records.map (fun r => r.date) ∧
      strictlyIncreasing s.index ∧
      s.index.Nodup := by
  match records, hne, h with
  | r :: rs, _, h =>
    refine ⟨buildStockSeries (r :: rs), rfl, ?_⟩
    have hidx : (buildStockSeries (r :: rs)).index = (r :: rs).map (fun x => x.date) := by
      simp [buildStockSeries, to_datetime]
    refine ⟨hidx, hidx ▸ h, ?_⟩
    rw [hidx]
    have hp : List.Pairwise (· < ·) ((r :: rs).map fun x => x.date) :=
      List.chain'_iff_pairwise.mp h
    exact hp.imp Nat.ne_of_lt

/-- Witness for C3 (amended) on a concrete two-record response with
increasing dates. -/
theorem normalization_preserves_date_order_witness :
    ∃ s, normalizeStockData [⟨3, 1, 2, 1, 1, 10⟩, ⟨7, 1, 2, 1, 1, 20⟩] = Except.ok s ∧
      s.index = [⟨3, 1, 2, 1, 1, 10⟩, ⟨7, 1, 2, 1, 1, 20⟩].map
        (fun r : DayRecord => r.date) ∧
      strictlyIncreasing s.index ∧
      s.index.Nodup :=
  normalization_preserves_date_order [⟨3, 1, 2, 1, 1, 10⟩, ⟨7, 1, 2, 1, 1, 20⟩]
    (by decide) (by simp [strictlyIncreasing])


/-- Helper: the start value bounds a left max fold from below. -/
theorem le_foldl_max (l : List Rat) (a : Rat) : a ≤ l.foldl max a := by
  induction l generalizing a with
  | nil => exact le_refl a
  | cons b bs ih => exact le_trans (le_max_left a b) (ih (max a b))

/-- Helper: every member bounds a left max fold from below. -/
theorem foldl_max_le_of_mem : ∀ (l : List Rat) (a x : Rat), x ∈ l → x ≤ l.foldl max a
  | [], _, _, hx => absurd hx (by simp)
  | b :: bs, a, x, hx => by
      rcases List.mem_cons.mp hx with h | h
      · subst h
        exact le_trans (le_max_right a x) (le_foldl_max bs (max a x))
      · exact foldl_max_le_of_mem bs (max a b) x h

/-- Helper: a left max fold returns its start value or a member. -/
theorem foldl_max_mem (l : List Rat) (a : Rat) : l.foldl max a = a ∨ l.foldl max a ∈ l := by
  induction l generalizing a with
  | nil => exact Or.inl rfl
  | cons b bs ih =>
    have hfold : (b :: bs).foldl max a = bs.foldl max (max a b) := rfl
    rcases ih (max a b) with h | h
    · rw [hfold, h]
      rcases le_total a b with hab | hba
      · right
        rw [max_eq_right hab]
        exact List.mem_cons_self b bs
      · left
        exact max_eq_left hba
    · right
      rw [hfold]
      exact List.mem_cons_of_mem b h

/-- Helper: on a nonempty list, seriesMax returns a member that bounds
every member from above. -/
theorem seriesMax_spec : ∀ (l : List Rat), l ≠ [] →
    ∃ m, seriesMax l = some m ∧ m ∈ l ∧ ∀ x ∈ l, x ≤ m
  | [], hne => absurd rfl hne
  | a :: as, _ => by
      refine ⟨as.foldl max a, rfl, ?_, ?_⟩
      · rcases foldl_max_mem as a with h | h
        · rw [h]
          exact List.mem_cons_self a as
        · exact List.mem_cons_of_mem a h
      · intro x hx
        rcases List.mem_cons.mp hx with h | h
        · subst h
          exact le_foldl_max as x
        · exact foldl_max_le_of_mem as a x h

/-- Helper: the start value bounds a left min fold from above. -/
theorem foldl_min_le (l : List Rat) (a : Rat) : l.foldl min a ≤ a := by
  induction l generalizing a with
  | nil => exact le_refl a
  | cons b bs ih => exact le_trans (ih (min a b)) (min_le_left a b)

/-- Helper: a left min fold bounds every member from below. -/
theorem foldl_min_le_of_mem : ∀ (l : List Rat) (a x : Rat), x ∈ l → l.foldl min a ≤ x
  | [], _, _, hx => absurd hx (by simp)
  | b :: bs, a, x, hx => by
      rcases List.mem_cons.mp hx with h | h
      · subst h
        exact le_trans (foldl_min_le bs (min a x)) (min_le_right a x)
      · exact foldl_min_le_of_mem bs (min a b) x h

/-- Helper: a left min fold returns its start value or a member. -/
theorem foldl_min_mem (l : List Rat) (a : Rat) : l.foldl min a = a ∨ l.foldl min a ∈ l := by
  induction l generalizing a with
  | nil => exact Or.inl rfl
  | cons b bs ih =>
    have hfold : (b :: bs).foldl min a = bs.foldl min (min a b) := rfl
    rcases ih (min a b) with h | h
    · rw [hfold, h]
      rcases le_total a b with hab | hba
      · left
        exact min_eq_left hab
      · right
        rw [min_eq_right hba]
        exact List.mem_cons_self b bs
    · right
      rw [hfold]
      exact List.mem_cons_of_mem b h

/-- Helper: on a nonempty list, seriesMin returns a member that bounds
every member from below. -/
theorem seriesMin_spec : ∀ (l : List Rat), l ≠ [] →
    ∃ m, seriesMin l = some m ∧ m ∈ l ∧ ∀ x ∈ l, m ≤ x
  | [], hne => absurd rfl hne
  | a :: as, _ => by
      refine ⟨as.foldl min a, rfl, ?_, ?_⟩
      · rcases foldl_min_mem as a with h | h
        · rw [h]
          exact List.mem_cons_self a as
        · exact List.mem_cons_of_mem a h
      · intro x hx
        rcases List.mem_cons.mp hx with h | h
        · subst h
          exact foldl_min_le as x
        · exact foldl_min_le_of_mem as a x h

/-- Helper: tail 252 of a mapped column is the mapped trailing window,
the whole series when it has at most 252 rows and the last 252 rows
otherwise. -/
theorem tail252_map_eq_window (s : StockSeries) (f : StockRow → Rat) :
    tail 252 (s.rows.map f) =
      (if s.rows.length ≤ 252 then s.rows else s.rows.drop (s.rows.length - 252)).map f := by
  by_cases h : s.rows.length ≤ 252
  · rw [tail, List.length_map, Nat.sub_eq_zero_of_le h, List.drop_zero, if_pos h]
  · rw [tail, List.length_map, if_neg h, List.map_drop]

/-- Helper: the trailing window of a nonempty series is nonempty. -/
theorem window_ne_nil (s : StockSeries) (hne : s.rows ≠ []) :
    (if s.rows.length ≤ 252 then s.rows else s.rows.drop (s.rows.length - 252)) ≠ [] := by
  by_cases h : s.rows.length ≤ 252
  · rw [if_pos h]
    exact hne
  · rw [if_neg h]
    apply List.ne_nil_of_length_pos
    rw [List.length_drop]
    omega

/-- C5: on any nonempty series, the 52-week high is the maximum of the
High column over the trailing 252 rows (all rows when the series is
shorter) and the 52-week low is the minimum of the Low column over the
same window: each is attained on the window and bounds it. -/
theorem week52_high_low_spec (s : StockSeries) (hne : s.rows ≠ []) :
    ∃ hi lo,
      max_52_week_high s = some hi ∧
      min_52_week_low s = some lo ∧
      hi ∈ (if s.rows.length ≤ 252 then s.rows
        else s.rows.drop (s.rows.length - 252)).map (fun r => r.High) ∧
      (∀ x ∈ (if s.rows.length ≤ 252 then s.rows
        else s.rows.drop (s.rows.length - 252)).map (fun r => r.High), x ≤ hi) ∧
      lo ∈ (if s.rows.length ≤ 252 then s.rows
        else s.rows.drop (s.rows.length - 252)).map (fun r => r.Low) ∧
      (∀ x ∈ (if s.rows.length ≤ 252 then s.rows
        else s.rows.drop (s.rows.length - 252)).map (fun r => r.Low), lo ≤ x) := by
  have hWne := window_ne_nil s hne
  obtain ⟨hi, hhi, hmemhi, hlehi⟩ :=
    seriesMax_spec ((if s.rows.length ≤ 252 then s.rows
      else s.rows.drop (s.rows.length - 252)).map (fun r => r.High)) (by simpa using hWne)
  obtain ⟨lo, hlo, hmemlo, hgelo⟩ :=
    seriesMin_spec ((if s.rows.length ≤ 252 then s.rows
      else s.rows.drop (s.rows.length - 252)).map (fun r => r.Low)) (by simpa using hWne)
  refine ⟨hi, lo, ?_, ?_, hmemhi, hlehi, hmemlo, hgelo⟩
  · rw [max_52_week_high, tail252_map_eq_window]
    exact hhi
  · rw [min_52_week_low, tail252_map_eq_window]
    exact hlo

/-- Witness for C5 on the concrete three-day series. -/
theorem week52_high_low_spec_witness :
    ∃ hi lo,
      max_52_week_high sampleSeries = some hi ∧
      min_52_week_low sampleSeries = some lo ∧
      hi ∈ (if sampleSeries.rows.length ≤ 252 then sampleSeries.rows
        else sampleSeries.rows.drop (sampleSeries.rows.length - 252)).map (fun r => r.High) ∧
      (∀ x ∈ (if sampleSeries.rows.length ≤ 252 then sampleSeries.rows
        else sampleSeries.rows.drop (sampleSeries.rows.length - 252)).map (fun r => r.High),
        x ≤ hi) ∧
      lo ∈ (if sampleSeries.rows.length ≤ 252 then sampleSeries.rows
        else sampleSeries.rows.drop (sampleSeries.rows.length - 252)).map (fun r => r.Low) ∧
      (∀ x ∈ (if sampleSeries.rows.length ≤ 252 then sampleSeries.rows
        else sampleSeries.rows.drop (sampleSeries.rows.length - 252)).map (fun r => r.Low),
        lo ≤ x) :=
  week52_high_low_spec sampleSeries (by decide)

/-- Helper: interpolation with factor 1 returns any in-range byte
unchanged, whatever the degenerate value. -/
theorem interpolateByte_one (d : Rat) (v : Nat) (hv : v ≤ 255) :
    interpolateByte d v 1 = v := by
  have h1 : d + 1 * ((v : Rat) - d) = (v : Rat) := by ring
  rw [interpolateByte, h1]
  have h2 : roundRat (v : Rat) = (v : Int) := by
    rw [roundRat, Int.floor_eq_iff]
    constructor
    · push_cast
      linarith
    · push_cast
      linarith
  rw [h2, clampByte]
  have hmin : min 255 (v : Int) = (v : Int) := min_eq_right (by exact_mod_cast hv)
  have hmax : max 0 (v : Int) = (v : Int) := max_eq_right (by positivity)
  rw [hmin, hmax]
  exact Int.toNat_natCast v

/-- Helper: blending a whole in-range pixel with factor 1 is the
identity. -/
theorem blendPixel_one (d : Rat) (p : Nat × Nat × Nat)
    (h1 : p.1 ≤ 255) (h2 : p.2.1 ≤ 255) (h3 : p.2.2 ≤ 255) :
    blendPixel d 1 p = p := by
  obtain ⟨a, b, c⟩ := p
  simp only [blendPixel]
  rw [interpolateByte_one d a h1, interpolateByte_one d b h2, interpolateByte_one d c h3]

/-- Helper: mapping a factor-1 blend over in-range pixels is the
identity. -/
theorem map_blendPixel_one (d : Rat) : ∀ (pixels : List (Nat × Nat × Nat)),
    (∀ p ∈ pixels, p.1 ≤ 255 ∧ p.2.1 ≤ 255 ∧ p.2.2 ≤ 255) →
    pixels.map (blendPixel d 1) = pixels
  | [], _ => rfl
  | p :: ps, h => by
      have hp := h p (List.mem_cons_self p ps)
      rw [List.map_cons, blendPixel_one d p hp.1 hp.2.1 hp.2.2,
        map_blendPixel_one d ps (fun q hq => h q (List.mem_cons_of_mem p hq))]

/-- Helper: brightness enhancement with factor 1 leaves a well-formed
image unchanged. -/
theorem brightnessEnhance_one (image : RGBImage) (h : image.wellFormed) :
    brightnessEnhance image 1 = image := by
  cases image with
  | mk pixels =>
      simp only [brightnessEnhance]
      rw [map_blendPixel_one 0 pixels h]

/-- Helper: contrast enhancement with factor 1 leaves a well-formed image
unchanged, whatever its mean gray level. -/
theorem contrastEnhance_one (image : RGBImage) (h : image.wellFormed) :
    contrastEnhance image 1 = image := by
  cases image with
  | mk pixels =>
      simp only [contrastEnhance]
      rw [map_blendPixel_one _ pixels h]

/-- C7: adjust_image with brightness factor 1 and contrast factor 1
returns the input image unchanged, for every image whose samples are
bytes. -/
theorem adjust_image_one_identity (image : RGBImage) (h : image.wellFormed) :
    adjust_image image 1 1 = image := by
  rw [adjust_image, brightnessEnhance_one image h, contrastEnhance_one image h]

/-- Witness for C7 on a concrete two-pixel image. -/
theorem adjust_image_one_identity_witness :
    adjust_image ⟨[(1, 2, 3), (255, 0, 200)]⟩ 1 1 = ⟨[(1, 2, 3), (255, 0, 200)]⟩ :=
  adjust_image_one_identity ⟨[(1, 2, 3), (255, 0, 200)]⟩ (by decide)

/-- Helper: the flat array of the resized image has 150 * 150 * channels
elements. -/
theorem resize150_pixels_length (image : PILImage) :
    (resize150 image).pixels.length = 150 * 150 * image.channels := by
  simp [resize150]

/-- Helper: grouping into triples yields a third of the elements. -/
theorem chunks3_length : ∀ (l : List Nat), (chunks3 l).length = l.length / 3
  | [] => by simp [chunks3]
  | [a] => by simp [chunks3]
  | [a, b] => by simp [chunks3]
  | a :: b :: c :: rest => by
      simp only [chunks3, List.length_cons, chunks3_length rest]
      omega

/-- Helper: reshape(-1, 3) succeeds exactly on element counts divisible
by 3. -/
theorem reshape_eq_some (l : List Nat) (h : l.length % 3 = 0) :
    reshapeNeg1x3 l = some (chunks3 l) := by
  rw [reshapeNeg1x3, if_pos h]

/-- C10 counterexample: a four-channel (RGBA) upload does not make the
reshape fail: after the fixed 150 x 150 resize its flat array has
150 * 150 * 4 = 90000 elements, which is divisible by 3, so
reshape(-1, 3) succeeds and extract_colors produces a palette. -/
theorem reshape_rgba_counterexample :
    reshapeNeg1x3 (resize150 ⟨1, 1, 4, [10, 20, 30, 40]⟩).pixels ≠ none ∧
    extract_colors 0 ⟨1, 1, 4, [10, 20, 30, 40]⟩ 5 ≠ none := by
  have hlen : (resize150 (⟨1, 1, 4, [10, 20, 30, 40]⟩ : PILImage)).pixels.length % 3 = 0 := by
    rw [resize150_pixels_length]
    norm_num
  have hr := reshape_eq_some _ hlen
  constructor
  · rw [hr]
    simp
  · simp only [extract_colors, hr, Option.map_some']
    simp

/-- C10 (amended): after the fixed 150 x 150 resize the reshape never
fails, whatever the channel count: the flat array has
150 * 150 * channels elements, always divisible by 3, and the reshape
yields 7500 * channels rows of 3 (22500 = width * height of the resized
image for a 3-channel image, but misaligned rows rather than a failure
for 4-channel or single-channel inputs). -/
theorem reshape_after_resize_total (image : PILImage) :
    ∃ rows, reshapeNeg1x3 (resize150 image).pixels = some rows ∧
      rows.length = 7500 * image.channels := by
  have hlen : (resize150 image).pixels.length % 3 = 0 := by
    rw [resize150_pixels_length]
    omega
  refine ⟨chunks3 (resize150 image).pixels, reshape_eq_some _ hlen, ?_⟩
  rw [chunks3_length, resize150_pixels_length]
  omega
